import Mathlib

/-!
Verification of `xla/service/gpu/spir_compiler.cc` (intel-extension-for-openxla).

Shallow embedding: the data model (HLO instructions, modules, debug options),
the pass-pipeline configuration built by `SPIRCompiler::OptimizeHloConvolutionCanonicalization`
and `SPIRCompiler::OptimizeHloPostLayoutAssignment`, the override-file loader
`MaybeLoadLLVMFromFile`, and the binary emitter `SPIRCompiler::CompileTargetBinary`.
External collaborators (the filesystem, the SPIR lowering toolchain, the base
compiler's post-layout optimizer, the sub-pass pipelines) are passed as explicit
function parameters. Passes whose bodies live outside this file's source
(FloatNormalization, GpuConvRewriter, DotDimensionMerger, HloConstantFolding)
are modelled from the specification's contract for them, as marked.
-/

namespace XlaGpu

/-- HLO primitive element types (the ones relevant to this file). -/
inductive PrimType
  | bf16
  | f16
  | f32
  | s32
  | pred
  deriving DecidableEq, Repr

/-- HLO opcodes relevant to the passes sequenced by spir_compiler.cc. -/
inductive HloOpcode
  | convolution
  | dot
  | constant
  | customCall
  | parameter
  | add
  | triangularSolve
  deriving DecidableEq, Repr

/-- An HLO instruction, abstracted to the attributes the claims depend on:
its opcode, the element types of its operands and result, the custom-call
target string (empty for non-custom-calls), the dimension groups of a dot,
and whether all of its operands are constants. -/
structure HloInstruction where
  opcode : HloOpcode
  operandTypes : List PrimType
  shapeType : PrimType
  customCallTarget : String
  contractingDims : List Nat
  operandsAreConstant : Bool
  deriving DecidableEq, Repr

/-- The debug options consulted by spir_compiler.cc. -/
structure DebugOptions where
  xla_gpu_enable_fast_min_max : Bool
  xla_gpu_normalize_layouts : Bool
  xla_gpu_llvm_ir_file : List String
  deriving DecidableEq, Repr

/-- The `HloModuleConfig`: carries the debug options. -/
structure HloModuleConfig where
  debug_options : DebugOptions
  deriving DecidableEq, Repr

/-- An HLO module: its name, its config, and its instructions. -/
structure HloModule where
  name : String
  config : HloModuleConfig
  instructions : List HloInstruction
  deriving DecidableEq, Repr

/-- The capability variant `se::GpuComputeCapability` is `std::variant<CudaComputeCapability,
RocmComputeCapability>`; the CUDA alternative is a (major, minor) pair. -/
inductive GpuComputeCapability
  | cuda (major minor : Nat)
  | rocm (gcn_arch_name : String)
  deriving DecidableEq, Repr

/-- The access `std::get<se::CudaComputeCapability>(gpu_version)`: succeeds exactly when
the variant holds the CUDA alternative. -/
def getCudaComputeCapability : GpuComputeCapability → Option (Nat × Nat)
  | GpuComputeCapability.cuda major minor => some (major, minor)
  | GpuComputeCapability.rocm _ => none

/-- A (parsed) LLVM module, opaque except for identity. -/
structure LLVMModule where
  ir : String
  deriving DecidableEq, Repr

/-- The final component of a slash-separated character list: scanning left to
right, a separator resets the accumulated component. -/
def basenameChars (l : List Char) : List Char :=
  l.foldl (fun acc c => if c = '/' then [] else acc ++ [c]) []

/-- Model of `tsl::io::Basename`: the final component of a slash-separated path. -/
def basename (path : String) : String :=
  String.mk (basenameChars path.data)

/-- Character-list prefix test. -/
def charListIsPre : List Char → List Char → Bool
  | [], _ => true
  | _ :: _, [] => false
  | a :: as, b :: bs => if a = b then charListIsPre as bs else false

/-- Model of `absl::StartsWith(s, pre)`: does `s` start with `pre`? -/
def strStartsWith (s pre : String) : Bool :=
  charListIsPre pre.data s.data

/-- Modelled from the spec: the module's canonical name prefix used for
override lookup (`xla::FilenameFor(*module, "", "")`, whose body is outside
this source file). -/
def FilenameFor (m : HloModule) : String :=
  m.name

/-- Diagnostics (VLOG output) emitted by `MaybeLoadLLVMFromFile`. -/
inductive Diag
  | noOverrideMatch (modulePre : String)
  | willLoadOverride (filename : String)
  deriving DecidableEq, Repr

/-- Outcome of `MaybeLoadLLVMFromFile`: a fatal process abort (`LOG(FATAL)`),
a successfully loaded override module, or fall-through (`nullptr`: use the
in-memory module). -/
inductive LoadOutcome
  | fatalAbort
  | loaded (m : LLVMModule)
  | fallthrough
  deriving DecidableEq, Repr

/-- Model of `absl::c_find_if(xla_gpu_llvm_ir_file, ...)`: the first candidate (in list
order) whose basename starts with the module-name prefix. -/
def matchedOverride (candidates : List String) (modulePre : String) : Option String :=
  candidates.find? (fun full_filename => strStartsWith (basename full_filename) modulePre)

/-- The body of `MaybeLoadLLVMFromFile` after the null-module check, with the
candidate list and module-name prefix as inputs and the filesystem (parse
result per filename, `llvm::parseIRFile`) as an explicit collaborator. -/
def MaybeLoadLLVMFromFileCore (fs : String → Option LLVMModule)
    (candidates : List String) (modulePre : String) : LoadOutcome × List Diag :=
  let matched := matchedOverride candidates modulePre
  let advisory : List Diag :=
    if candidates ≠ [] ∧ matched = none then [Diag.noOverrideMatch modulePre] else []
  match matched with
  | some filename =>
      match fs filename with
      | none => (LoadOutcome.fatalAbort, advisory ++ [Diag.willLoadOverride filename])
      | some lm => (LoadOutcome.loaded lm, advisory ++ [Diag.willLoadOverride filename])
  | none => (LoadOutcome.fallthrough, advisory)

/-- The loader `MaybeLoadLLVMFromFile(module, llvm_module)`: returns `nullptr` immediately
when the HLO module pointer is null, otherwise looks up an override by the
module's filename prefix among `xla_gpu_llvm_ir_file`. -/
def MaybeLoadLLVMFromFile (fs : String → Option LLVMModule)
    (module? : Option HloModule) : LoadOutcome × List Diag :=
  match module? with
  | none => (LoadOutcome.fallthrough, [])
  | some m =>
      MaybeLoadLLVMFromFileCore fs m.config.debug_options.xla_gpu_llvm_ir_file (FilenameFor m)

/-- Outcome of `CompileTargetBinary`: fatal abort (from the override loader),
a propagated toolchain error, or a (metadata, binary) pair. The binary is the
byte sequence of the SPIR string. -/
inductive CompileOutcome
  | fatalAbort
  | error (e : String)
  | ok (result : String × List Char)
  deriving DecidableEq, Repr

/-- The module selected for emission: the loaded override if present,
otherwise the in-memory `llvm_module`. -/
def selectModule : LoadOutcome → LLVMModule → LLVMModule
  | LoadOutcome.loaded lm, _ => lm
  | LoadOutcome.fatalAbort, lv => lv
  | LoadOutcome.fallthrough, lv => lv

/-- The emission step of `CompileTargetBinary` when a debug module is present:
`TF_ASSIGN_OR_RETURN(spir, spir::CompileToSpir(...))` followed by packaging
the bytes with an empty metadata string. -/
def emitSelected (compileToSpir : LLVMModule → GpuComputeCapability → DebugOptions → String → Except String String)
    (selected : LLVMModule) (gpu_version : GpuComputeCapability)
    (module_config : HloModuleConfig) : CompileOutcome :=
  match compileToSpir selected gpu_version module_config.debug_options "" with
  | Except.error e => CompileOutcome.error e
  | Except.ok spir => CompileOutcome.ok ("", spir.data)

/-- The emitter `SPIRCompiler::CompileTargetBinary`: try the override loader; select the
override module if loaded, else the in-memory one; lower to SPIR only when the
debug module is non-null (otherwise `spir` stays the empty string); return the
bytes with an empty metadata string. -/
def CompileTargetBinary (fs : String → Option LLVMModule)
    (compileToSpir : LLVMModule → GpuComputeCapability → DebugOptions → String → Except String String)
    (module_config : HloModuleConfig) (llvm_module : LLVMModule)
    (gpu_version : GpuComputeCapability) (relocatable : Bool)
    (debug_module : Option HloModule) : CompileOutcome :=
  match MaybeLoadLLVMFromFile fs debug_module with
  | (LoadOutcome.fatalAbort, _) => CompileOutcome.fatalAbort
  | (load, _) =>
      let selected := selectModule load llvm_module
      match debug_module with
      | some _ => emitSelected compileToSpir selected gpu_version module_config
      | none => CompileOutcome.ok ("", [])

/-- The fields of `AlgebraicSimplifierOptions` set in spir_compiler.cc
(defaults as in xla/service/algebraic_simplifier.h). -/
structure AlgebraicSimplifierOptions where
  supports_non_canonical_dots : Bool := true
  is_layout_sensitive : Bool := false
  enable_conv_operand_swap : Bool := true
  minmax_propagate_nan : Bool := true
  enable_unconditional_reduce_of_concat_replacement : Bool := true
  deriving DecidableEq, Repr

/-- The `AlgebraicSimplifierOptions` built in `OptimizeHloPostLayoutAssignment`
for the multi-headed-attention fusion sub-pipeline: the source sets
non-canonical-dot support off, layout sensitivity on, conv operand swap off,
NaN propagation through min/max to the negation of the fast-min-max debug
flag, and unconditional reduce-of-concat replacement off. -/
def mhaAlgSimOptions (debug_options : DebugOptions) : AlgebraicSimplifierOptions :=
  { supports_non_canonical_dots := false
    is_layout_sensitive := true
    enable_conv_operand_swap := false
    minmax_propagate_nan := !debug_options.xla_gpu_enable_fast_min_max
    enable_unconditional_reduce_of_concat_replacement := false }

/-- Identity of a pass added to the post-layout-assignment pipelines, with the
configuration it is constructed with. -/
inductive PassId
  | reshapeDecomposer
  | layoutNormalization
  | hloCSE (is_layout_sensitive : Bool)
  | algebraicSimplifierFix (opts : AlgebraicSimplifierOptions)
  | hloDCE
  | cudnnFusedMHARewriter
  | algebraicSimplifier (opts : AlgebraicSimplifierOptions)
  | dotDimensionMerger
  | hloConstantFolding
  deriving DecidableEq, Repr

/-- The passes added to the `multi-headed attention fusion` pipeline, in the
order `OptimizeHloPostLayoutAssignment` adds them (the RedundantConvertMover
pass is commented out in the source). -/
def mhaFusionPipelinePasses (debug_options : DebugOptions) : List PassId :=
  (if debug_options.xla_gpu_normalize_layouts then
    [PassId.reshapeDecomposer, PassId.layoutNormalization]
  else []) ++
  [PassId.hloCSE true,
   PassId.algebraicSimplifierFix (mhaAlgSimOptions debug_options),
   PassId.hloCSE true,
   PassId.hloDCE,
   PassId.cudnnFusedMHARewriter,
   PassId.algebraicSimplifier (mhaAlgSimOptions debug_options),
   PassId.hloDCE,
   PassId.hloCSE true]

/-- All passes run by the Post-Layout pre-step (before the delegation to
`GpuCompiler::OptimizeHloPostLayoutAssignment`): the MHA fusion pipeline when
the `MHA` environment flag is on, then the unconditional
`spir post-layout_assignment part 1` pipeline (DotDimensionMerger followed by
HloConstantFolding). -/
def postLayoutPreStepPasses (use_mha : Bool) (debug_options : DebugOptions) : List PassId :=
  (if use_mha then mhaFusionPipelinePasses debug_options else []) ++
  [PassId.dotDimensionMerger, PassId.hloConstantFolding]

/-- The fused multi-head-attention custom-call target produced by
CudnnFusedMHARewriter (`xla/service/gpu/cublas_cudnn.h`, outside this file). -/
def kCudnnfMHACallTarget : String := "__cudnn$fmha"

/-- Whether an instruction is a fused multi-head-attention custom call. -/
def isFusedMHACustomCall (i : HloInstruction) : Bool :=
  if i.opcode = HloOpcode.customCall ∧ i.customCallTarget = kCudnnfMHACallTarget then
    true
  else false

/-- Whether a module contains a fused multi-head-attention custom call. -/
def containsFusedMHA (m : HloModule) : Bool :=
  m.instructions.any isFusedMHACustomCall

/-- Modelled from the spec: `DotDimensionMerger` merges adjacent dimension
groups of dot-product operations; only dot instructions are rewritten and they
remain dot instructions. -/
def DotDimensionMergerInstr (i : HloInstruction) : HloInstruction :=
  if i.opcode = HloOpcode.dot then
    { i with contractingDims := [i.contractingDims.foldl (fun a b => a * b) 1] }
  else i

/-- Pass `DotDimensionMerger` applied to every instruction of a module. -/
def DotDimensionMergerRun (m : HloModule) : HloModule :=
  { m with instructions := m.instructions.map DotDimensionMergerInstr }

/-- Modelled from the spec: `HloConstantFolding` collapses instructions whose
operands are all constants into constant instructions; constants, parameters
and (opaque) custom calls are not folded. -/
def HloConstantFoldingInstr (i : HloInstruction) : HloInstruction :=
  if i.operandsAreConstant = true ∧ i.opcode ≠ HloOpcode.constant ∧
      i.opcode ≠ HloOpcode.parameter ∧ i.opcode ≠ HloOpcode.customCall then
    { i with opcode := HloOpcode.constant, customCallTarget := "", operandsAreConstant := false }
  else i

/-- Pass `HloConstantFolding` applied to every instruction of a module. -/
def HloConstantFoldingRun (m : HloModule) : HloModule :=
  { m with instructions := m.instructions.map HloConstantFoldingInstr }

/-- The Post-Layout pre-step as run when the `MHA` flag is disabled: only the
`spir post-layout_assignment part 1` pipeline runs, i.e. DotDimensionMerger
then HloConstantFolding. -/
def postLayoutPreStepRunNoMha (m : HloModule) : HloModule :=
  HloConstantFoldingRun (DotDimensionMergerRun m)

/-- Class `ConvBfloat16Support` (spir_compiler.cc): the FloatSupport policy for BF16
convolutions, holding the `is_conv_bf16_supported_` field. -/
structure ConvBfloat16Support where
  is_conv_bf16_supported : Bool
  deriving DecidableEq, Repr

/-- The constructor `ConvBfloat16Support()`: sets `is_conv_bf16_supported_`
to true unconditionally. -/
def ConvBfloat16Support.construct : ConvBfloat16Support :=
  { is_conv_bf16_supported := true }

/-- Method `ConvBfloat16Support::SupportsLowPrecisionOperand`. -/
def ConvBfloat16Support.SupportsLowPrecisionOperand (s : ConvBfloat16Support)
    (hlo : HloInstruction) (operand_index : Nat) : Bool :=
  decide (hlo.opcode ≠ HloOpcode.convolution) || s.is_conv_bf16_supported

/-- Method `ConvBfloat16Support::SupportsLowPrecisionOutput`. -/
def ConvBfloat16Support.SupportsLowPrecisionOutput (s : ConvBfloat16Support)
    (hlo : HloInstruction) : Bool :=
  decide (hlo.opcode ≠ HloOpcode.convolution) || s.is_conv_bf16_supported

/-- Method `ConvBfloat16Support::SupportsMixedPrecisions`: skips all HLOs other than
convolutions. -/
def ConvBfloat16Support.SupportsMixedPrecisions (s : ConvBfloat16Support)
    (hlo : HloInstruction) : Bool :=
  decide (hlo.opcode ≠ HloOpcode.convolution)

/-- Modelled from the spec: the operand-widening step of `FloatNormalization`
(xla/service/float_normalization.h, outside this file) — each BF16 operand
whose position the support policy rejects is widened to F32, walking the
operand list with its index. -/
def normalizeOperandsFrom (s : ConvBfloat16Support) (i : HloInstruction) :
    Nat → List PrimType → List PrimType
  | _, [] => []
  | idx, t :: rest =>
      (if t = PrimType.bf16 ∧ s.SupportsLowPrecisionOperand i idx = false then
        PrimType.f32
      else t) :: normalizeOperandsFrom s i (idx + 1) rest

/-- Modelled from the spec: `FloatNormalization` on one instruction — widen
unsupported BF16 operands and an unsupported BF16 output to F32. -/
def FloatNormalizeInstr (s : ConvBfloat16Support) (i : HloInstruction) : HloInstruction :=
  { i with
    operandTypes := normalizeOperandsFrom s i 0 i.operandTypes
    shapeType :=
      if i.shapeType = PrimType.bf16 ∧ s.SupportsLowPrecisionOutput i = false then
        PrimType.f32
      else i.shapeType }

/-- Pass `FloatNormalization` applied to every instruction of a module. -/
def FloatNormalizationRun (s : ConvBfloat16Support) (m : HloModule) : HloModule :=
  { m with instructions := m.instructions.map (FloatNormalizeInstr s) }

/-- The convolution-forward custom-call target produced by GpuConvRewriter
(`xla/service/gpu/cublas_cudnn.h`, outside this file). -/
def kCudnnConvForwardCallTarget : String := "__cudnn$convForward"

/-- Modelled from the spec: `GpuConvRewriter` legalizes a convolution into its
canonical custom-call form, preserving the operand and result types. -/
def GpuConvRewriterInstr (i : HloInstruction) : HloInstruction :=
  if i.opcode = HloOpcode.convolution then
    { i with opcode := HloOpcode.customCall, customCallTarget := kCudnnConvForwardCallTarget }
  else i

/-- Pass `GpuConvRewriter` applied to every instruction of a module. -/
def GpuConvRewriterRun (m : HloModule) : HloModule :=
  { m with instructions := m.instructions.map GpuConvRewriterInstr }

/-- The normalization-then-legalization portion of the
`conv_canonicalization` pipeline, in the order the source adds the passes:
`FloatNormalization` with the given `ConvBfloat16Support` policy, then
`GpuConvRewriter`. -/
def convNormalizeThenLegalize (s : ConvBfloat16Support) (m : HloModule) : HloModule :=
  GpuConvRewriterRun (FloatNormalizationRun s m)

/-- Outcome of one of the two `Status`-returning optimization entry points:
`std::get` on the wrong variant alternative terminates before anything runs;
otherwise a pipeline error propagates, or the transformed module is produced. -/
inductive StageOutcome
  | badVariantAccess
  | error (e : String)
  | ok (m : HloModule)
  deriving DecidableEq, Repr

/-- Model of `HloPassPipeline::Run` over a list of pass applications: run each in
order, stopping at the first error. -/
def runPipeline (passes : List (HloModule → Except String HloModule))
    (m : HloModule) : Except String HloModule :=
  match passes with
  | [] => Except.ok m
  | p :: rest =>
      match p m with
      | Except.error e => Except.error e
      | Except.ok m2 => runPipeline rest m2

/-- Stage `SPIRCompiler::OptimizeHloConvolutionCanonicalization`: first extracts the
CUDA compute capability from the variant, then runs the
`conv_canonicalization` pipeline (passed as an explicit collaborator),
propagating its error via `TF_RETURN_IF_ERROR`. -/
def OptimizeHloConvolutionCanonicalization (gpu_version : GpuComputeCapability)
    (pipelineRun : HloModule → Except String HloModule)
    (hlo_module : HloModule) : StageOutcome :=
  match getCudaComputeCapability gpu_version with
  | none => StageOutcome.badVariantAccess
  | some _ =>
      match pipelineRun hlo_module with
      | Except.error e => StageOutcome.error e
      | Except.ok m => StageOutcome.ok m

/-- Stage `SPIRCompiler::OptimizeHloPostLayoutAssignment`: extracts the CUDA compute
capability from the variant; runs the MHA fusion pipeline when the `MHA`
environment flag is set; then the part-1 pre-pipeline; then the base
compiler's own post-layout optimization; then the part-2 post-pipeline
(TriangularSolveRewriter). Each `TF_RETURN_IF_ERROR` short-circuits the rest.
The four stage bodies are explicit collaborators. -/
def OptimizeHloPostLayoutAssignment (gpu_version : GpuComputeCapability)
    (use_mha : Bool)
    (mhaFusionRun prePipelineRun baseOptimizeRun postPipelineRun :
      HloModule → Except String HloModule)
    (hlo_module : HloModule) : StageOutcome :=
  match getCudaComputeCapability gpu_version with
  | none => StageOutcome.badVariantAccess
  | some _ =>
      match (if use_mha then mhaFusionRun hlo_module else Except.ok hlo_module) with
      | Except.error e => StageOutcome.error e
      | Except.ok m1 =>
          match prePipelineRun m1 with
          | Except.error e => StageOutcome.error e
          | Except.ok m2 =>
              match baseOptimizeRun m2 with
              | Except.error e => StageOutcome.error e
              | Except.ok m3 =>
                  match postPipelineRun m3 with
                  | Except.error e => StageOutcome.error e
                  | Except.ok m4 => StageOutcome.ok m4

/-- A concrete convolution instruction with narrow-float (bf16) operands. -/
def c2ConvInstr : HloInstruction :=
  { opcode := HloOpcode.convolution
    operandTypes := [PrimType.bf16, PrimType.bf16]
    shapeType := PrimType.bf16
    customCallTarget := ""
    contractingDims := []
    operandsAreConstant := false }

/-- A concrete module holding just `c2ConvInstr`. -/
def c2ExampleModule : HloModule :=
  { name := "m"
    config := { debug_options :=
      { xla_gpu_enable_fast_min_max := false
        xla_gpu_normalize_layouts := false
        xla_gpu_llvm_ir_file := [] } }
    instructions := [c2ConvInstr] }

/-- An empty module with default debug options. -/
def emptyModule : HloModule :=
  { name := "m"
    config := { debug_options :=
      { xla_gpu_enable_fast_min_max := false
        xla_gpu_normalize_layouts := false
        xla_gpu_llvm_ir_file := [] } }
    instructions := [] }

/- ------------------------------------------------------------------ -/
/- Theorems.                                                          -/
/- ------------------------------------------------------------------ -/

theorem find?_first (p : String → Bool) (l : List String) (x : String)
    (h : l.find? p = some x) :
    ∃ l₁ l₂, l = l₁ ++ x :: l₂ ∧ (∀ y ∈ l₁, p y = false) ∧ p x = true := by
  induction l with
  | nil => simp at h
  | cons a t ih =>
    by_cases hp : p a = true
    · rw [List.find?_cons_of_pos _ hp] at h
      obtain rfl : a = x := by injection h
      exact ⟨[], t, rfl, by simp, hp⟩
    · rw [List.find?_cons_of_neg _ hp] at h
      obtain ⟨l₁, l₂, rfl, h1, h2⟩ := ih h
      refine ⟨a :: l₁, l₂, rfl, ?_, h2⟩
      intro y hy
      rcases List.mem_cons.mp hy with rfl | hy
      · exact Bool.not_eq_true _ ▸ (by simpa using hp)
      · exact h1 y hy

theorem emitSelected_ok_metadata
    (cts : LLVMModule → GpuComputeCapability → DebugOptions → String → Except String String)
    (sel : LLVMModule) (gv : GpuComputeCapability) (cfg : HloModuleConfig)
    (md : String) (bin : List Char)
    (h : emitSelected cts sel gv cfg = CompileOutcome.ok (md, bin)) : md = "" := by
  unfold emitSelected at h
  rcases hc : cts sel gv cfg.debug_options "" with e | spir
  · rw [hc] at h; cases h
  · rw [hc] at h
    injection h with h3
    exact (congrArg Prod.fst h3).symm

/-- C4: for every candidate override filename list and module-name prefix,
override lookup selects the first candidate (in list order) whose basename
starts with the prefix; if the list is non-empty and no candidate's basename
starts with the prefix, only the advisory diagnostic is emitted (no error)
and emission proceeds with the in-memory module. -/
theorem c4_override_first_match_advisory :
    ∀ (fs : String → Option LLVMModule) (candidates : List String) (modulePre : String),
      (∀ f, matchedOverride candidates modulePre = some f →
        strStartsWith (basename f) modulePre = true ∧
        ∃ l₁ l₂, candidates = l₁ ++ f :: l₂ ∧
          ∀ g ∈ l₁, strStartsWith (basename g) modulePre = false) ∧
      (candidates ≠ [] → matchedOverride candidates modulePre = none →
        MaybeLoadLLVMFromFileCore fs candidates modulePre =
          (LoadOutcome.fallthrough, [Diag.noOverrideMatch modulePre]) ∧
        ∀ (cts : LLVMModule → GpuComputeCapability → DebugOptions → String → Except String String)
          (module_config : HloModuleConfig) (llvm_module : LLVMModule)
          (gpu_version : GpuComputeCapability) (relocatable : Bool) (m : HloModule),
          m.config.debug_options.xla_gpu_llvm_ir_file = candidates →
          FilenameFor m = modulePre →
          CompileTargetBinary fs cts module_config llvm_module gpu_version relocatable
              (some m) =
            emitSelected cts llvm_module gpu_version module_config) := by
  intro fs candidates modulePre
  constructor
  · intro f hf
    obtain ⟨l₁, l₂, rfl, h1, h2⟩ := find?_first _ _ _ hf
    exact ⟨h2, l₁, l₂, rfl, h1⟩
  · intro hne hnone
    have hcore : MaybeLoadLLVMFromFileCore fs candidates modulePre =
        (LoadOutcome.fallthrough, [Diag.noOverrideMatch modulePre]) := by
      simp [MaybeLoadLLVMFromFileCore, hnone, hne]
    refine ⟨hcore, ?_⟩
    intro cts cfg lv gv reloc m hlist hname
    have hload : MaybeLoadLLVMFromFile fs (some m) =
        (LoadOutcome.fallthrough, [Diag.noOverrideMatch modulePre]) := by
      have h0 : MaybeLoadLLVMFromFile fs (some m) =
          MaybeLoadLLVMFromFileCore fs m.config.debug_options.xla_gpu_llvm_ir_file
            (FilenameFor m) := rfl
      rw [h0, hlist, hname]
      exact hcore
    unfold CompileTargetBinary
    rw [hload]
    rfl

/-- C4 witness: a singleton candidate list whose basename does not start with
the module prefix — the loader falls through with exactly the advisory
diagnostic, and emission uses the in-memory module. -/
theorem c4_witness :
    (["dir/other.ll"] ≠ ([] : List String)) ∧
    MaybeLoadLLVMFromFileCore (fun _ => none) ["dir/other.ll"] "prog" =
      (LoadOutcome.fallthrough, [Diag.noOverrideMatch "prog"]) := by
  refine ⟨by decide, ?_⟩
  exact ((c4_override_first_match_advisory (fun _ => none) ["dir/other.ll"] "prog").2
    (by decide) (by decide)).1

/-- C5: a matched override file that fails to parse is a fatal abort: the
loader reports `fatalAbort` and `CompileTargetBinary` aborts rather than
falling back to the in-memory module. -/
theorem c5_override_parse_failure_fatal :
    ∀ (fs : String → Option LLVMModule) (candidates : List String)
      (modulePre f : String),
      matchedOverride candidates modulePre = some f → fs f = none →
      (MaybeLoadLLVMFromFileCore fs candidates modulePre).1 = LoadOutcome.fatalAbort ∧
      ∀ (cts : LLVMModule → GpuComputeCapability → DebugOptions → String → Except String String)
        (module_config : HloModuleConfig) (llvm_module : LLVMModule)
        (gpu_version : GpuComputeCapability) (relocatable : Bool) (m : HloModule),
        m.config.debug_options.xla_gpu_llvm_ir_file = candidates →
        FilenameFor m = modulePre →
        CompileTargetBinary fs cts module_config llvm_module gpu_version relocatable
            (some m) =
          CompileOutcome.fatalAbort := by
  intro fs candidates modulePre f hf hfs
  have hcore : MaybeLoadLLVMFromFileCore fs candidates modulePre =
      (LoadOutcome.fatalAbort, [Diag.willLoadOverride f]) := by
    simp [MaybeLoadLLVMFromFileCore, hf, hfs]
  refine ⟨by rw [hcore], ?_⟩
  intro cts cfg lv gv reloc m hlist hname
  have hload : MaybeLoadLLVMFromFile fs (some m) =
      (LoadOutcome.fatalAbort, [Diag.willLoadOverride f]) := by
    have h0 : MaybeLoadLLVMFromFile fs (some m) =
        MaybeLoadLLVMFromFileCore fs m.config.debug_options.xla_gpu_llvm_ir_file
          (FilenameFor m) := rfl
    rw [h0, hlist, hname]
    exact hcore
  unfold CompileTargetBinary
  rw [hload]

/-- C5 witness: a matching candidate whose parse fails gives a fatal abort. -/
theorem c5_witness :
    (matchedOverride ["dir/prog_v1.ll"] "prog" = some "dir/prog_v1.ll") ∧
    (MaybeLoadLLVMFromFileCore (fun _ => none) ["dir/prog_v1.ll"] "prog").1 =
      LoadOutcome.fatalAbort := by
  refine ⟨by decide, ?_⟩
  exact (c5_override_parse_failure_fatal (fun _ => none) ["dir/prog_v1.ll"] "prog"
    "dir/prog_v1.ll" (by decide) rfl).1

/-- C6: with a null debug module, lowering is skipped: the result is an empty
binary with empty metadata and no error, independently of the lowering
toolchain function. -/
theorem c6_null_debug_module_skips_lowering :
    ∀ (fs : String → Option LLVMModule)
      (cts cts' : LLVMModule → GpuComputeCapability → DebugOptions → String → Except String String)
      (module_config : HloModuleConfig) (llvm_module : LLVMModule)
      (gpu_version : GpuComputeCapability) (relocatable : Bool),
      CompileTargetBinary fs cts module_config llvm_module gpu_version relocatable none =
        CompileOutcome.ok ("", []) ∧
      CompileTargetBinary fs cts module_config llvm_module gpu_version relocatable none =
        CompileTargetBinary fs cts' module_config llvm_module gpu_version relocatable none := by
  intro fs cts cts' cfg lv gv reloc
  exact ⟨rfl, rfl⟩

/-- C7: every successful invocation of `CompileTargetBinary` returns an empty
metadata string. -/
theorem c7_metadata_empty :
    ∀ (fs : String → Option LLVMModule)
      (cts : LLVMModule → GpuComputeCapability → DebugOptions → String → Except String String)
      (module_config : HloModuleConfig) (llvm_module : LLVMModule)
      (gpu_version : GpuComputeCapability) (relocatable : Bool)
      (debug_module : Option HloModule) (md : String) (bin : List Char),
      CompileTargetBinary fs cts module_config llvm_module gpu_version relocatable
          debug_module = CompileOutcome.ok (md, bin) →
      md = "" := by
  intro fs cts cfg lv gv reloc dbg md bin h
  cases dbg with
  | none =>
    have h2 : CompileOutcome.ok (("" : String), ([] : List Char)) =
        CompileOutcome.ok (md, bin) := h
    injection h2 with h3
    exact (congrArg Prod.fst h3).symm
  | some m =>
    unfold CompileTargetBinary at h
    rcases hL : MaybeLoadLLVMFromFile fs (some m) with ⟨load, diags⟩
    rw [hL] at h
    cases load with
    | fatalAbort => simp at h
    | loaded lm => exact emitSelected_ok_metadata cts _ gv cfg md bin h
    | fallthrough => exact emitSelected_ok_metadata cts _ gv cfg md bin h

/-- C7 witness: the null-debug-module invocation succeeds with metadata "". -/
theorem c7_witness : ("" : String) = "" :=
  c7_metadata_empty (fun _ => none) (fun _ _ _ _ => Except.ok "") ⟨⟨false, false, []⟩⟩
    ⟨"ir"⟩ (GpuComputeCapability.cuda 9 0) false none "" [] rfl

/-- C8: override selection is deterministic (identical inputs select the same
candidate), and an empty candidate list falls through to the in-memory module
with no error and no diagnostic. -/
theorem c8_override_deterministic_empty_fallthrough :
    (∀ (c₁ c₂ : List String) (p₁ p₂ : String), c₁ = c₂ → p₁ = p₂ →
      matchedOverride c₁ p₁ = matchedOverride c₂ p₂) ∧
    ∀ (fs : String → Option LLVMModule) (modulePre : String),
      MaybeLoadLLVMFromFileCore fs [] modulePre = (LoadOutcome.fallthrough, []) ∧
      (∀ llvm_module,
        selectModule (MaybeLoadLLVMFromFileCore fs [] modulePre).1 llvm_module =
          llvm_module) ∧
      ∀ (cts : LLVMModule → GpuComputeCapability → DebugOptions → String → Except String String)
        (module_config : HloModuleConfig) (llvm_module : LLVMModule)
        (gpu_version : GpuComputeCapability) (relocatable : Bool) (m : HloModule),
        m.config.debug_options.xla_gpu_llvm_ir_file = [] →
        CompileTargetBinary fs cts module_config llvm_module gpu_version relocatable
            (some m) =
          emitSelected cts llvm_module gpu_version module_config := by
  constructor
  · intro c₁ c₂ p₁ p₂ hc hp
    rw [hc, hp]
  · intro fs modulePre
    refine ⟨rfl, fun lv => rfl, ?_⟩
    intro cts cfg lv gv reloc m hlist
    have hload : MaybeLoadLLVMFromFile fs (some m) = (LoadOutcome.fallthrough, []) := by
      have h0 : MaybeLoadLLVMFromFile fs (some m) =
          MaybeLoadLLVMFromFileCore fs m.config.debug_options.xla_gpu_llvm_ir_file
            (FilenameFor m) := rfl
      rw [h0, hlist]
      rfl
    unfold CompileTargetBinary
    rw [hload]
    rfl

/-- C8 witness: determinism and the empty-list fall-through at concrete
inputs. -/
theorem c8_witness :
    matchedOverride ["a"] "a" = matchedOverride ["a"] "a" ∧
    MaybeLoadLLVMFromFileCore (fun _ => none) [] "prog" =
      (LoadOutcome.fallthrough, []) :=
  ⟨c8_override_deterministic_empty_fallthrough.1 ["a"] ["a"] "a" "a" rfl rfl,
   (c8_override_deterministic_empty_fallthrough.2 (fun _ => none) "prog").1⟩

/-- C10: both optimization entry points unconditionally extract the CUDA
alternative from the capability variant before running any pass; a descriptor
holding the other (ROCm) alternative fails before any graph transformation
occurs, independently of every pipeline body. -/
theorem c10_requires_cuda_variant :
    ∀ (gcn_arch_name : String)
      (pipelineRun mhaFusionRun prePipelineRun baseOptimizeRun postPipelineRun :
        HloModule → Except String HloModule)
      (use_mha : Bool) (hlo_module : HloModule),
      OptimizeHloConvolutionCanonicalization (GpuComputeCapability.rocm gcn_arch_name)
          pipelineRun hlo_module = StageOutcome.badVariantAccess ∧
      OptimizeHloPostLayoutAssignment (GpuComputeCapability.rocm gcn_arch_name) use_mha
          mhaFusionRun prePipelineRun baseOptimizeRun postPipelineRun hlo_module =
        StageOutcome.badVariantAccess := by
  intro gcn p1 p2 p3 p4 p5 use_mha m
  exact ⟨rfl, rfl⟩

/-- C9: the first error anywhere short-circuits: within a pass pipeline, after
a failing pass nothing further runs; in the canonicalization stage a pipeline
error propagates; in the post-layout stage a failure of the MHA fusion
pipeline, the part-1 pre-pipeline or the base compiler's optimization makes
the result that error, independently of all later stage bodies (so neither
the base-compiler call nor the triangular-solve rewrite runs). -/
theorem c9_error_short_circuit :
    (∀ (p : HloModule → Except String HloModule)
        (rest : List (HloModule → Except String HloModule)) (m : HloModule) (e : String),
      p m = Except.error e → runPipeline (p :: rest) m = Except.error e) ∧
    (∀ (major minor : Nat) (pipelineRun : HloModule → Except String HloModule)
        (m : HloModule) (e : String),
      pipelineRun m = Except.error e →
      OptimizeHloConvolutionCanonicalization (GpuComputeCapability.cuda major minor)
          pipelineRun m = StageOutcome.error e) ∧
    (∀ (major minor : Nat) (mhaFusionRun : HloModule → Except String HloModule)
        (m : HloModule) (e : String),
      mhaFusionRun m = Except.error e →
      ∀ (prePipelineRun baseOptimizeRun postPipelineRun :
          HloModule → Except String HloModule),
        OptimizeHloPostLayoutAssignment (GpuComputeCapability.cuda major minor) true
            mhaFusionRun prePipelineRun baseOptimizeRun postPipelineRun m =
          StageOutcome.error e) ∧
    (∀ (major minor : Nat) (use_mha : Bool)
        (mhaFusionRun prePipelineRun : HloModule → Except String HloModule)
        (m m1 : HloModule) (e : String),
      (if use_mha then mhaFusionRun m else Except.ok m) = Except.ok m1 →
      prePipelineRun m1 = Except.error e →
      ∀ (baseOptimizeRun postPipelineRun : HloModule → Except String HloModule),
        OptimizeHloPostLayoutAssignment (GpuComputeCapability.cuda major minor) use_mha
            mhaFusionRun prePipelineRun baseOptimizeRun postPipelineRun m =
          StageOutcome.error e) ∧
    (∀ (major minor : Nat) (use_mha : Bool)
        (mhaFusionRun prePipelineRun baseOptimizeRun : HloModule → Except String HloModule)
        (m m1 m2 : HloModule) (e : String),
      (if use_mha then mhaFusionRun m else Except.ok m) = Except.ok m1 →
      prePipelineRun m1 = Except.ok m2 →
      baseOptimizeRun m2 = Except.error e →
      ∀ (postPipelineRun : HloModule → Except String HloModule),
        OptimizeHloPostLayoutAssignment (GpuComputeCapability.cuda major minor) use_mha
            mhaFusionRun prePipelineRun baseOptimizeRun postPipelineRun m =
          StageOutcome.error e) := by
  refine ⟨?_, ?_, ?_, ?_, ?_⟩
  · intro p rest m e h
    simp [runPipeline, h]
  · intro major minor pipelineRun m e h
    simp [OptimizeHloConvolutionCanonicalization, getCudaComputeCapability, h]
  · intro major minor mhaFusionRun m e h p2 p3 p4
    simp [OptimizeHloPostLayoutAssignment, getCudaComputeCapability, h]
  · intro major minor use_mha mhaFusionRun prePipelineRun m m1 e h1 h2 p3 p4
    simp [OptimizeHloPostLayoutAssignment, getCudaComputeCapability, h1, h2]
  · intro major minor use_mha mhaFusionRun prePipelineRun baseOptimizeRun m m1 m2 e h1 h2 h3 p4
    simp [OptimizeHloPostLayoutAssignment, getCudaComputeCapability, h1, h2, h3]

/-- C9 witness: a failing canonicalization pipeline makes the stage return
exactly that error. -/
theorem c9_witness :
    ((fun (_ : HloModule) => (Except.error "boom" : Except String HloModule)) emptyModule =
      Except.error "boom") ∧
    OptimizeHloConvolutionCanonicalization (GpuComputeCapability.cuda 9 0)
        (fun _ => Except.error "boom") emptyModule = StageOutcome.error "boom" :=
  ⟨rfl, c9_error_short_circuit.2.1 9 0 (fun _ => Except.error "boom") emptyModule "boom" rfl⟩

/-- C3: every algebraic-simplifier pass of the attention-fusion sub-pipeline
is configured with NaN propagation through min/max equal to the negation of
the fast-min-max debug flag: NaNs propagate exactly when the flag is false. -/
theorem c3_minmax_propagate_nan :
    ∀ (debug_options : DebugOptions) (o : AlgebraicSimplifierOptions),
      (PassId.algebraicSimplifierFix o ∈ mhaFusionPipelinePasses debug_options ∨
        PassId.algebraicSimplifier o ∈ mhaFusionPipelinePasses debug_options) →
      o.minmax_propagate_nan = !debug_options.xla_gpu_enable_fast_min_max ∧
      (o.minmax_propagate_nan = true ↔
        debug_options.xla_gpu_enable_fast_min_max = false) := by
  intro d o h
  have ho : o = mhaAlgSimOptions d := by
    rcases d with ⟨fmm, nl, files⟩
    rcases h with h | h <;> cases nl <;>
      simp [mhaFusionPipelinePasses] at h <;> exact h
  subst ho
  refine ⟨rfl, ?_⟩
  cases hd : d.xla_gpu_enable_fast_min_max <;> simp [mhaAlgSimOptions, hd]

/-- C3 witness: with fast-min-max off, the simplifier options in the pipeline
propagate NaN. -/
theorem c3_witness :
    (mhaAlgSimOptions ⟨false, false, []⟩).minmax_propagate_nan =
      !(⟨false, false, []⟩ : DebugOptions).xla_gpu_enable_fast_min_max :=
  (c3_minmax_propagate_nan ⟨false, false, []⟩ (mhaAlgSimOptions ⟨false, false, []⟩)
    (Or.inr (by decide))).1

theorem isFusedMHA_dotMerge (i : HloInstruction) :
    isFusedMHACustomCall (DotDimensionMergerInstr i) = isFusedMHACustomCall i := by
  unfold DotDimensionMergerInstr
  split <;> rfl

theorem isFusedMHA_constantFold (i : HloInstruction)
    (h : isFusedMHACustomCall i = false) :
    isFusedMHACustomCall (HloConstantFoldingInstr i) = false := by
  unfold HloConstantFoldingInstr
  split
  · simp [isFusedMHACustomCall]
  · exact h

/-- C1: with the attention-fusion flag disabled the Post-Layout pre-step is
exactly dimension-merge plus constant folding, a strict sub-list of the
enabled-flag pass sequence, and (for a module not already containing one) no
fused multi-head-attention custom call appears in the resulting module. -/
theorem c1_attention_fusion_disabled :
    ∀ (debug_options : DebugOptions),
      postLayoutPreStepPasses false debug_options =
        [PassId.dotDimensionMerger, PassId.hloConstantFolding] ∧
      (postLayoutPreStepPasses false debug_options).Sublist
        (postLayoutPreStepPasses true debug_options) ∧
      postLayoutPreStepPasses false debug_options ≠
        postLayoutPreStepPasses true debug_options ∧
      ∀ (m : HloModule), containsFusedMHA m = false →
        containsFusedMHA (postLayoutPreStepRunNoMha m) = false := by
  intro d
  refine ⟨rfl, ?_, ?_, ?_⟩
  · show ([PassId.dotDimensionMerger, PassId.hloConstantFolding] : List PassId).Sublist
      (mhaFusionPipelinePasses d ++ [PassId.dotDimensionMerger, PassId.hloConstantFolding])
    exact List.sublist_append_right _ _
  · intro h
    have hlen := congrArg List.length h
    rcases d with ⟨fmm, nl, files⟩
    cases nl <;> simp [postLayoutPreStepPasses, mhaFusionPipelinePasses] at hlen
  · intro m hm
    have step : ∀ (l : List HloInstruction), l.any isFusedMHACustomCall = false →
        ((l.map DotDimensionMergerInstr).map HloConstantFoldingInstr).any
          isFusedMHACustomCall = false := by
      intro l hl
      induction l with
      | nil => rfl
      | cons a t ih =>
        simp only [List.any_cons, Bool.or_eq_false_iff, List.map_cons] at hl ⊢
        refine ⟨isFusedMHA_constantFold _ ?_, ih hl.2⟩
        rw [isFusedMHA_dotMerge]
        exact hl.1
    show ((m.instructions.map DotDimensionMergerInstr).map HloConstantFoldingInstr).any
      isFusedMHACustomCall = false
    exact step m.instructions hm

/-- C1 witness: at a concrete module with no fused-MHA node, the disabled-flag
pre-step result has none either. -/
theorem c1_witness :
    containsFusedMHA emptyModule = false ∧
    containsFusedMHA (postLayoutPreStepRunNoMha emptyModule) = false :=
  ⟨rfl, (c1_attention_fusion_disabled ⟨false, false, []⟩).2.2.2 emptyModule rfl⟩

theorem normalizeOperandsFrom_supported (s : ConvBfloat16Support)
    (hs : s.is_conv_bf16_supported = true) (i : HloInstruction) :
    ∀ (idx : Nat) (l : List PrimType), normalizeOperandsFrom s i idx l = l := by
  intro idx l
  induction l generalizing idx with
  | nil => rfl
  | cons t rest ih =>
    have hneg : ¬(t = PrimType.bf16 ∧ s.SupportsLowPrecisionOperand i idx = false) := by
      rintro ⟨-, h2⟩
      rw [ConvBfloat16Support.SupportsLowPrecisionOperand, hs, Bool.or_true] at h2
      exact absurd h2 (by decide)
    show (if t = PrimType.bf16 ∧ s.SupportsLowPrecisionOperand i idx = false then
        PrimType.f32 else t) :: normalizeOperandsFrom s i (idx + 1) rest = t :: rest
    rw [if_neg hneg, ih]

theorem normalizeOperandsFrom_conv_unsupported (i : HloInstruction)
    (hc : i.opcode = HloOpcode.convolution) :
    ∀ (idx : Nat) (l : List PrimType), (∀ t ∈ l, t = PrimType.bf16) →
      ∀ t ∈ normalizeOperandsFrom { is_conv_bf16_supported := false } i idx l,
        t = PrimType.f32 := by
  intro idx l
  induction l generalizing idx with
  | nil =>
    intro _ t ht
    simp [normalizeOperandsFrom] at ht
  | cons a rest ih =>
    intro hall t ht
    have hcond : a = PrimType.bf16 ∧
        ConvBfloat16Support.SupportsLowPrecisionOperand
          { is_conv_bf16_supported := false } i idx = false := by
      refine ⟨hall a (List.mem_cons_self a rest), ?_⟩
      simp [ConvBfloat16Support.SupportsLowPrecisionOperand, hc]
    rw [show normalizeOperandsFrom { is_conv_bf16_supported := false } i idx (a :: rest) =
        (if a = PrimType.bf16 ∧ ConvBfloat16Support.SupportsLowPrecisionOperand
            { is_conv_bf16_supported := false } i idx = false then
          PrimType.f32 else a) ::
          normalizeOperandsFrom { is_conv_bf16_supported := false } i (idx + 1) rest
      from rfl] at ht
    rw [if_pos hcond] at ht
    rcases List.mem_cons.mp ht with rfl | ht2
    · rfl
    · exact ih (idx + 1) (fun x hx => hall x (List.mem_cons_of_mem a hx)) t ht2

theorem gpuConvRewriter_preserves_operandTypes (i : HloInstruction) :
    (GpuConvRewriterInstr i).operandTypes = i.operandTypes := by
  unfold GpuConvRewriterInstr
  split <;> rfl

theorem gpuConvRewriter_opcode_conv (i : HloInstruction)
    (h : i.opcode = HloOpcode.convolution) :
    (GpuConvRewriterInstr i).opcode = HloOpcode.customCall := by
  unfold GpuConvRewriterInstr
  rw [if_pos h]

/-- C2 counterexample: at a concrete module with one bf16 convolution and a
concrete capability descriptor, the canonicalization stage — with the
`ConvBfloat16Support` policy exactly as the source constructs it — legalizes
the convolution with its bf16 operand types intact: no operand is widened to
full precision, contradicting the claim. -/
theorem c2_counterexample :
    OptimizeHloConvolutionCanonicalization (GpuComputeCapability.cuda 0 0)
        (fun m => Except.ok (convNormalizeThenLegalize ConvBfloat16Support.construct m))
        c2ExampleModule =
      StageOutcome.ok
        { c2ExampleModule with instructions :=
            [{ opcode := HloOpcode.customCall
               operandTypes := [PrimType.bf16, PrimType.bf16]
               shapeType := PrimType.bf16
               customCallTarget := kCudnnConvForwardCallTarget
               contractingDims := []
               operandsAreConstant := false }] } ∧
    ¬ ∀ i ∈ (convNormalizeThenLegalize ConvBfloat16Support.construct
          c2ExampleModule).instructions,
        ∀ t ∈ i.operandTypes, t = PrimType.f32 := by
  exact ⟨rfl, by decide⟩

/-- C2 (amended): the stage's policy object unconditionally reports bf16
convolution support, so with the policy as constructed a bf16 convolution is
legalized with its operand types unchanged; operands are widened to full
precision (and the legalized node carries f32 operands) exactly under a
policy whose support flag is false, which the stage never constructs. -/
theorem c2_amended :
    ∀ (i : HloInstruction), i.opcode = HloOpcode.convolution →
      (∀ t ∈ i.operandTypes, t = PrimType.bf16) →
      ((GpuConvRewriterInstr (FloatNormalizeInstr ConvBfloat16Support.construct i)).operandTypes =
          i.operandTypes ∧
        (GpuConvRewriterInstr (FloatNormalizeInstr ConvBfloat16Support.construct i)).opcode =
          HloOpcode.customCall) ∧
      ((∀ t ∈ (GpuConvRewriterInstr
            (FloatNormalizeInstr { is_conv_bf16_supported := false } i)).operandTypes,
          t = PrimType.f32) ∧
        (GpuConvRewriterInstr
            (FloatNormalizeInstr { is_conv_bf16_supported := false } i)).opcode =
          HloOpcode.customCall) := by
  intro i hc hall
  constructor
  · constructor
    · rw [gpuConvRewriter_preserves_operandTypes]
      show normalizeOperandsFrom ConvBfloat16Support.construct i 0 i.operandTypes =
        i.operandTypes
      exact normalizeOperandsFrom_supported _ rfl i 0 i.operandTypes
    · exact gpuConvRewriter_opcode_conv _ hc
  · constructor
    · intro t ht
      rw [gpuConvRewriter_preserves_operandTypes] at ht
      exact normalizeOperandsFrom_conv_unsupported i hc 0 i.operandTypes hall t ht
    · exact gpuConvRewriter_opcode_conv _ hc

/-- C2 witness: the amended claim at the concrete bf16 convolution. -/
theorem c2_witness :
    (GpuConvRewriterInstr
        (FloatNormalizeInstr ConvBfloat16Support.construct c2ConvInstr)).operandTypes =
      c2ConvInstr.operandTypes ∧
    ∀ t ∈ (GpuConvRewriterInstr
        (FloatNormalizeInstr { is_conv_bf16_supported := false } c2ConvInstr)).operandTypes,
      t = PrimType.f32 :=
  ⟨(c2_amended c2ConvInstr rfl (by decide)).1.1,
   (c2_amended c2ConvInstr rfl (by decide)).2.1⟩

end XlaGpu
